import Mathlib

/-!
# Verification of the jsonrpc-types dual-dialect codec

Shallow embedding of the JSON-RPC 1.0 / 2.0 envelope codec of the
`jsonrpc-types` crate.  JSON values are modelled as a tree; a JSON object is
the ordered list of its members exactly as the serde `MapAccess` machinery
presents them to the hand-written visitors, so duplicate and unknown keys are
observable.  Each Rust `visit_map` loop becomes a structurally recursive scan
over that member list, and each `Serialize` impl becomes a function producing
a `Json` value (or an error, where the source can fail).
-/

set_option autoImplicit false

namespace JsonRpc

/-- Generic JSON value (the external `serde_json::Value` collaborator).
Numbers are modelled as integers; the claims under verification only involve
integral numeric payloads. -/
inductive Json where
  | null : Json
  | bool (b : Bool) : Json
  | num (n : Int) : Json
  | str (s : String) : Json
  | arr (xs : List Json) : Json
  | obj (ms : List (String × Json)) : Json

/-- The keys of a JSON object's member list, in order. -/
def keys (ms : List (String × Json)) : List String := ms.map Prod.fst

/-- `src/version.rs` (compat variant): the protocol version tag; only the
literal "2.0" exists, dialect 1.0 is the *absence* of the tag. -/
inductive Version where
  | v2_0 : Version
deriving DecidableEq

/-- `src/id.rs`: JSON-RPC request id (untagged union `Null | Num(u64) | Str`). -/
inductive Id where
  | null : Id
  | num (n : Nat) : Id
  | str (s : String) : Id
deriving DecidableEq

/-- The `u64` bound that `Id::Num` carries by construction in Rust. -/
def Id.wf : Id → Prop
  | .num n => n < 2 ^ 64
  | _ => True

/-- `src/request/params.rs`: request params, `Array` or `Map` (the compat
envelopes use this type). -/
inductive Params where
  | array (xs : List Json) : Params
  | map (ms : List (String × Json)) : Params

/-- `src/request/params.rs` `Params::is_array`. -/
def Params.is_array : Params → Bool
  | .array _ => true
  | .map _ => false

/-- `src/params.rs` (legacy variant): params with an explicit `None` case. -/
inductive ParamsN where
  | none : ParamsN
  | array (xs : List Json) : ParamsN
  | map (ms : List (String × Json)) : ParamsN

/-- `src/params.rs` `impl From<Params> for JsonValue`. -/
def paramsNToJson : ParamsN → Json
  | .none => .null
  | .array xs => .arr xs
  | .map ms => .obj ms

/-- The error object `{code, message, data}`.  Modelled from the spec (§3,
§7): the crate's `error` module is not under `src/`; the spec fixes the shape
`{code: signed integer, message: string, data: optional generic value}`. -/
structure SpecError where
  code : Int
  message : String
  data : Option Json

/-- Modelled from the spec (§4.2, §7): `Error::invalid_params_with_details`
from the missing `error` module builds an `InvalidParams` (code `-32602`)
error naming the offending value in its payload. -/
def SpecError.invalidParamsWithDetails (msg : String) (details : Json) : SpecError :=
  ⟨-32602, msg, some details⟩

/-! ## Field-level decoders (the `next_value::<T>` calls) -/

/-- `Version` deserialization (`src/version.rs` visitor): only the string
"2.0" is accepted. -/
def decVersion : Json → Except String Version
  | .str s => if s = "2.0" then .ok .v2_0 else .error "invalid version"
  | _ => .error "invalid version"

/-- `Option<Version>` (derived field decoding, legacy variant). -/
def decOptVersion : Json → Except String (Option Version)
  | .null => .ok none
  | j => (decVersion j).map some

/-- `Id` deserialization (`src/id.rs`, untagged): null, a `u64` number, or a
string; anything else (negative, fractional, out of range, other shapes)
fails. -/
def decId : Json → Except String Id
  | .null => .ok .null
  | .num n => if 0 ≤ n ∧ n < 2 ^ 64 then .ok (.num n.toNat) else .error "invalid id"
  | .str s => .ok (.str s)
  | _ => .error "invalid id"

/-- `Option<Id>` field decoding: JSON null is `None`, otherwise an `Id`. -/
def decOptId : Json → Except String (Option Id)
  | .null => .ok none
  | j => (decId j).map some

/-- `String` field decoding (the `method` field). -/
def decString : Json → Except String String
  | .str s => .ok s
  | _ => .error "invalid method"

/-- `Params` deserialization (`src/request/params.rs`, untagged):
array or object by shape. -/
def decParams : Json → Except String Params
  | .arr xs => .ok (.array xs)
  | .obj ms => .ok (.map ms)
  | _ => .error "invalid params"

/-- `Params` deserialization for the legacy `src/params.rs` type (untagged):
the unit variant `None` matches JSON null. -/
def decParamsN : Json → Except String ParamsN
  | .null => .ok .none
  | .arr xs => .ok (.array xs)
  | .obj ms => .ok (.map ms)
  | _ => .error "invalid params"

/-- `Value` field decoding: any JSON value succeeds. -/
def decValue : Json → Except String Json := .ok

/-- `Option<Value>` field decoding: null is `None`, anything else `Some`. -/
def decOptValue : Json → Except String (Option Json)
  | .null => .ok none
  | .bool b => .ok (some (.bool b))
  | .num n => .ok (some (.num n))
  | .str s => .ok (some (.str s))
  | .arr xs => .ok (some (.arr xs))
  | .obj ms => .ok (some (.obj ms))

/-- `Error` deserialization.  Modelled from the spec (§3): an object holding
the required `code` (integer) and `message` (string) members, and an optional
trailing `data` member, in the object layout the serializer produces. -/
def decError : Json → Except String SpecError
  | .obj [("code", .num c), ("message", .str m)] => .ok ⟨c, m, none⟩
  | .obj [("code", .num c), ("message", .str m), ("data", d)] => .ok ⟨c, m, some d⟩
  | _ => .error "invalid error object"

/-- `Option<Error>` field decoding: null is `None`, otherwise an `Error`. -/
def decOptError : Json → Except String (Option SpecError)
  | .null => .ok none
  | j => (decError j).map some

/-! ## Field-level encoders -/

/-- `Version` serialization: the literal string "2.0". -/
def encVersion : Version → Json
  | .v2_0 => .str "2.0"

/-- `Id` serialization (structural inverse of `decId`). -/
def encId : Id → Json
  | .null => .null
  | .num n => .num n
  | .str s => .str s

/-- `Params` serialization. -/
def encParams : Params → Json
  | .array xs => .arr xs
  | .map ms => .obj ms

/-- `Error` serialization (structural inverse of `decError`). -/
def encError (e : SpecError) : Json :=
  .obj ([("code", .num e.code), ("message", .str e.message)] ++
    (match e.data with
      | some d => [("data", d)]
      | none => []))

/-! ## The single-pass field scanner

Each hand-written `visit_map` loop scans the incoming object's members once,
accumulating at most one occurrence of each schema field, erroring on a
duplicate or unknown key, and decoding each value at the point it is met.
`scan4` is that loop for a four-field schema, `scan3` for a three-field one. -/

/-- Accumulator of a four-field scan: one optional slot per schema field. -/
structure Scan4State (α β γ δ : Type) where
  s1 : Option α := none
  s2 : Option β := none
  s3 : Option γ := none
  s4 : Option δ := none

/-- The `while let Some(key) = next_key()` loop over a four-field schema. -/
def scan4 {α β γ δ : Type} (k1 k2 k3 k4 : String)
    (d1 : Json → Except String α) (d2 : Json → Except String β)
    (d3 : Json → Except String γ) (d4 : Json → Except String δ) :
    List (String × Json) → Scan4State α β γ δ → Except String (Scan4State α β γ δ)
  | [], st => .ok st
  | (k, v) :: rest, st =>
    if k = k1 then
      match st.s1 with
      | some _ => .error ("duplicate field `" ++ k1 ++ "`")
      | none =>
        match d1 v with
        | .error e => .error e
        | .ok x => scan4 k1 k2 k3 k4 d1 d2 d3 d4 rest { st with s1 := some x }
    else if k = k2 then
      match st.s2 with
      | some _ => .error ("duplicate field `" ++ k2 ++ "`")
      | none =>
        match d2 v with
        | .error e => .error e
        | .ok x => scan4 k1 k2 k3 k4 d1 d2 d3 d4 rest { st with s2 := some x }
    else if k = k3 then
      match st.s3 with
      | some _ => .error ("duplicate field `" ++ k3 ++ "`")
      | none =>
        match d3 v with
        | .error e => .error e
        | .ok x => scan4 k1 k2 k3 k4 d1 d2 d3 d4 rest { st with s3 := some x }
    else if k = k4 then
      match st.s4 with
      | some _ => .error ("duplicate field `" ++ k4 ++ "`")
      | none =>
        match d4 v with
        | .error e => .error e
        | .ok x => scan4 k1 k2 k3 k4 d1 d2 d3 d4 rest { st with s4 := some x }
    else .error ("unknown field `" ++ k ++ "`")

/-- Accumulator of a three-field scan. -/
structure Scan3State (α β γ : Type) where
  t1 : Option α := none
  t2 : Option β := none
  t3 : Option γ := none

/-- The scanning loop over a three-field schema. -/
def scan3 {α β γ : Type} (k1 k2 k3 : String)
    (d1 : Json → Except String α) (d2 : Json → Except String β)
    (d3 : Json → Except String γ) :
    List (String × Json) → Scan3State α β γ → Except String (Scan3State α β γ)
  | [], st => .ok st
  | (k, v) :: rest, st =>
    if k = k1 then
      match st.t1 with
      | some _ => .error ("duplicate field `" ++ k1 ++ "`")
      | none =>
        match d1 v with
        | .error e => .error e
        | .ok x => scan3 k1 k2 k3 d1 d2 d3 rest { st with t1 := some x }
    else if k = k2 then
      match st.t2 with
      | some _ => .error ("duplicate field `" ++ k2 ++ "`")
      | none =>
        match d2 v with
        | .error e => .error e
        | .ok x => scan3 k1 k2 k3 d1 d2 d3 rest { st with t2 := some x }
    else if k = k3 then
      match st.t3 with
      | some _ => .error ("duplicate field `" ++ k3 ++ "`")
      | none =>
        match d3 v with
        | .error e => .error e
        | .ok x => scan3 k1 k2 k3 d1 d2 d3 rest { st with t3 := some x }
    else .error ("unknown field `" ++ k ++ "`")

/-! ## Envelope structures (compat variant, `src/request/mod.rs` and
`src/response/mod.rs`) -/

/-- `src/request/mod.rs` `MethodCall`. -/
structure MethodCall where
  jsonrpc : Option Version
  method : String
  params : Option Params
  id : Id

/-- `src/request/mod.rs` `Notification`. -/
structure Notification where
  jsonrpc : Option Version
  method : String
  params : Option Params

/-- `src/response/mod.rs` `Success`. -/
structure Success where
  jsonrpc : Option Version
  result : Json
  id : Id

/-- `src/response/mod.rs` `Failure`. -/
structure Failure where
  jsonrpc : Option Version
  error : SpecError
  id : Id

/-- `src/response/mod.rs` `Output` (untagged `Success | Failure`). -/
inductive Output where
  | success (s : Success) : Output
  | failure (f : Failure) : Output

/-- `src/v1/response.rs` `Output`: the JSON-RPC 1.0-only response shape, with
both fields physically represented as options. -/
structure OutputV1 where
  result : Option Json
  error : Option SpecError
  id : Id

/-- `src/request/mod.rs` `MethodCall::new_v1`: the panicking assert on
non-array params is modelled as `none`. -/
def MethodCall.new_v1 (method : String) (params : Params) (id : Id) :
    Option MethodCall :=
  if params.is_array then some ⟨none, method, some params, id⟩ else none

/-- `src/request/mod.rs` `Notification::new_v1`: the panicking assert on
non-array params is modelled as `none`. -/
def Notification.new_v1 (method : String) (params : Params) :
    Option Notification :=
  if params.is_array then some ⟨none, method, some params⟩ else none

/-! ## Request-side codec (`src/request/compat.rs`) -/

/-- `method.ok_or_else(missing_field)`. -/
def requireMethod : Option String → Except String String
  | some m => .ok m
  | none => .error "missing field `method`"

/-- `id.ok_or_else(missing_field)`. -/
def requireId : Option Id → Except String Id
  | some i => .ok i
  | none => .error "missing field `id`"

/-- The dialect validation after the `MethodCall` scan
(`src/request/compat.rs` lines 151-178): params case analysis first, then
`method` and `id` presence. -/
def finishMethodCall (st : Scan4State Version String Params Id) :
    Except String MethodCall :=
  match st.s1, st.s3 with
  | some .v2_0, p =>
    (requireMethod st.s2).bind fun m =>
      (requireId st.s4).map fun i => ⟨some .v2_0, m, p, i⟩
  | none, some p =>
    match p with
    | .array xs =>
      (requireMethod st.s2).bind fun m =>
        (requireId st.s4).map fun i => ⟨none, m, some (.array xs), i⟩
    | .map _ => .error "JSON-RPC v1 params must be an array of objects"
  | none, none => .error "Incompatible with JSON-RPC v1 and v2 specification"

/-- `impl Deserialize for MethodCall` (`src/request/compat.rs`). -/
def deserializeMethodCall : Json → Except String MethodCall
  | .obj ms =>
    (scan4 "jsonrpc" "method" "params" "id" decVersion decString decParams decId
      ms {}).bind finishMethodCall
  | _ => .error "invalid type: expected struct MethodCall"

/-- The validation after the `Notification` scan (`src/request/compat.rs`
lines 294-319): `method` first, then the dialect case analysis on
`(jsonrpc, params, id)`. -/
def finishNotification (st : Scan4State Version String Params (Option Id)) :
    Except String Notification :=
  (requireMethod st.s2).bind fun m =>
    match st.s1, st.s3, st.s4 with
    | some .v2_0, p, none => .ok ⟨some .v2_0, m, p⟩
    | some .v2_0, _, some _ => .error "JSON-RPC v2 notification must not contain id"
    | none, some p, some none =>
      match p with
      | .array xs => .ok ⟨none, m, some (.array xs)⟩
      | .map _ => .error "JSON-RPC v1 params must be an array of objects, id must be null"
    | _, _, _ => .error "Incompatible with JSON-RPC v1 and v2 specification"

/-- `impl Deserialize for Notification` (`src/request/compat.rs`); the `id`
slot is read as `Option<Id>`. -/
def deserializeNotification : Json → Except String Notification
  | .obj ms =>
    (scan4 "jsonrpc" "method" "params" "id" decVersion decString decParams decOptId
      ms {}).bind finishNotification
  | _ => .error "invalid type: expected struct Notification"

/-- `src/request/mod.rs` `Call` (untagged `MethodCall | Notification`):
decode tries the `MethodCall` shape first. -/
inductive Call where
  | methodCall (mc : MethodCall) : Call
  | notification (n : Notification) : Call

/-- Untagged decoding of `Call`. -/
def deserializeCall (j : Json) : Except String Call :=
  match deserializeMethodCall j with
  | .ok mc => .ok (.methodCall mc)
  | .error _ =>
    match deserializeNotification j with
    | .ok n => .ok (.notification n)
    | .error _ => .error "data did not match any variant of untagged enum Call"

/-- `impl Serialize for MethodCall` (`src/request/compat.rs` lines 50-94). -/
def serializeMethodCall (mc : MethodCall) : Except String Json :=
  match mc.jsonrpc with
  | some .v2_0 =>
    match mc.params with
    | some p =>
      .ok (.obj [("jsonrpc", .str "2.0"), ("method", .str mc.method),
        ("params", encParams p), ("id", encId mc.id)])
    | none =>
      .ok (.obj [("jsonrpc", .str "2.0"), ("method", .str mc.method),
        ("id", encId mc.id)])
  | none =>
    match mc.params with
    | some (.array xs) =>
      .ok (.obj [("method", .str mc.method), ("params", .arr xs),
        ("id", encId mc.id)])
    | some (.map _) => .error "JSON-RPC v1 params must be an array of objects"
    | none => .error "missing field `params`"

/-- `impl Serialize for Notification` (`src/request/compat.rs` lines
194-238); the 1.0 branch writes an explicit `"id": null`. -/
def serializeNotification (n : Notification) : Except String Json :=
  match n.jsonrpc, n.params with
  | some .v2_0, some p =>
    .ok (.obj [("jsonrpc", .str "2.0"), ("method", .str n.method),
      ("params", encParams p)])
  | some .v2_0, none =>
    .ok (.obj [("jsonrpc", .str "2.0"), ("method", .str n.method)])
  | none, some p =>
    match p with
    | .array xs =>
      .ok (.obj [("method", .str n.method), ("params", .arr xs), ("id", .null)])
    | .map _ => .error "JSON-RPC v1 params must be an array of objects"
  | none, none => .error "Incompatible with JSON-RPC v1 and v2 specification"

/-! ## Response-side codec (`src/response/compat.rs`, `src/v1/response.rs`) -/

/-- The validation after the `Success` scan (`src/response/compat.rs` lines
133-150): case analysis on `(jsonrpc, result, error)`, then `id`. -/
def finishSuccess (st : Scan4State Version Json (Option SpecError) Id) :
    Except String Success :=
  match st.s1, st.s2, st.s3 with
  | some .v2_0, some v, none => (requireId st.s4).map fun i => ⟨some .v2_0, v, i⟩
  | none, some v, some none => (requireId st.s4).map fun i => ⟨none, v, i⟩
  | _, _, _ => .error "Incompatible with JSON-RPC v1 and v2 specification"

/-- `impl Deserialize for Success` (`src/response/compat.rs`): `result` is
read as a plain `Value`, `error` as `Option<Error>`. -/
def deserializeSuccess : Json → Except String Success
  | .obj ms =>
    (scan4 "jsonrpc" "result" "error" "id" decVersion decValue decOptError decId
      ms {}).bind finishSuccess
  | _ => .error "invalid type: expected struct SuccessResponse"

/-- The validation after the `Failure` scan (`src/response/compat.rs` lines
252-265). -/
def finishFailure (st : Scan4State Version (Option Json) SpecError Id) :
    Except String Failure :=
  match st.s1, st.s2, st.s3 with
  | some .v2_0, none, some e => (requireId st.s4).map fun i => ⟨some .v2_0, e, i⟩
  | none, some none, some e => (requireId st.s4).map fun i => ⟨none, e, i⟩
  | _, _, _ => .error "Incompatible with JSON-RPC v1 and v2 specification"

/-- `impl Deserialize for Failure` (`src/response/compat.rs`): `result` is
read as `Option<Value>`, `error` as a plain `Error`. -/
def deserializeFailure : Json → Except String Failure
  | .obj ms =>
    (scan4 "jsonrpc" "result" "error" "id" decVersion decOptValue decError decId
      ms {}).bind finishFailure
  | _ => .error "invalid type: expected struct FailureResponse"

/-- Untagged decoding of `Output` (`src/response/mod.rs`): `Success` shape
first, then `Failure`. -/
def deserializeOutput (j : Json) : Except String Output :=
  match deserializeSuccess j with
  | .ok s => .ok (.success s)
  | .error _ =>
    match deserializeFailure j with
    | .ok f => .ok (.failure f)
    | .error _ => .error "data did not match any variant of untagged enum Output"

/-- `impl Serialize for Success` (`src/response/compat.rs` lines 51-77): the
1.0 branch emits an explicit `"error": null` companion field. -/
def serializeSuccess (s : Success) : Json :=
  match s.jsonrpc with
  | some .v2_0 =>
    .obj [("jsonrpc", .str "2.0"), ("result", s.result), ("id", encId s.id)]
  | none =>
    .obj [("result", s.result), ("error", .null), ("id", encId s.id)]

/-- `impl Serialize for Failure` (`src/response/compat.rs` lines 166-196):
the 1.0 branch emits an explicit `"result": null` companion field. -/
def serializeFailure (f : Failure) : Json :=
  match f.jsonrpc with
  | some .v2_0 =>
    .obj [("jsonrpc", .str "2.0"), ("error", encError f.error), ("id", encId f.id)]
  | none =>
    .obj [("error", encError f.error), ("result", .null), ("id", encId f.id)]

/-- The validation after the 1.0 `Output` scan (`src/v1/response.rs` lines
81-90): both `result` and `error` must be physically present with exactly one
of them null. -/
def finishOutputV1 (st : Scan3State (Option Json) (Option SpecError) Id) :
    Except String OutputV1 :=
  match st.t1, st.t2 with
  | some (some v), some none => (requireId st.t3).map fun i => ⟨some v, none, i⟩
  | some none, some (some e) => (requireId st.t3).map fun i => ⟨none, some e, i⟩
  | _, _ => .error "JSON-RPC 1.0 response MUST contain both `result` and `error` field"

/-- `impl Deserialize for Output` (`src/v1/response.rs`): a three-field
schema `{result, error, id}`; `jsonrpc` is an unknown key here. -/
def deserializeOutputV1 : Json → Except String OutputV1
  | .obj ms =>
    (scan3 "result" "error" "id" decOptValue decOptError decId ms {}).bind
      finishOutputV1
  | _ => .error "invalid type: expected struct Output"

/-- Derived `Serialize` for the 1.0 `Output` (`src/v1/response.rs`): both
option fields are always emitted, `None` as explicit JSON null. -/
def serializeOutputV1 (o : OutputV1) : Json :=
  .obj [("result", (o.result).getD .null),
    ("error", (o.error).elim Json.null encError),
    ("id", encId o.id)]

/-! ## Legacy variant (`src/request.rs`, `src/params.rs`): derived codecs and
the `Call::Invalid` salvage fallback -/

/-- `src/request.rs` `MethodCall` (derived codec, params defaulted). -/
structure MethodCallL where
  jsonrpc : Option Version
  method : String
  params : ParamsN
  id : Id

/-- `src/request.rs` `Notification` (derived codec). -/
structure NotificationL where
  jsonrpc : Option Version
  method : String
  params : ParamsN

/-- `src/request.rs` `Call`: untagged `MethodCall | Notification | Invalid`,
where `Invalid` salvages whatever id could be recovered. -/
inductive CallL where
  | methodCall (mc : MethodCallL) : CallL
  | notification (n : NotificationL) : CallL
  | invalid (id : Id) : CallL

/-- `src/request.rs` `Request`: single call or batch. -/
inductive RequestL where
  | single (c : CallL) : RequestL
  | batch (cs : List CallL) : RequestL

/-- Derived `Deserialize` for the legacy `MethodCall`
(`deny_unknown_fields`): `jsonrpc` is an `Option` field (absent means
`None`), `params` falls back to its default when absent (`serde(default)`;
the default is the spec's `Absent` case, §3), `method` and `id` required. -/
def deserializeMethodCallL : Json → Except String MethodCallL
  | .obj ms =>
    (scan4 "jsonrpc" "method" "params" "id" decOptVersion decString decParamsN decId
      ms {}).bind fun st =>
      (requireMethod st.s2).bind fun m =>
        (requireId st.s4).map fun i =>
          ⟨st.s1.getD none, m, st.s3.getD .none, i⟩
  | _ => .error "invalid type: expected struct MethodCall"

/-- Derived `Deserialize` for the legacy `Notification`
(`deny_unknown_fields`): the schema has no `id` key at all. -/
def deserializeNotificationL : Json → Except String NotificationL
  | .obj ms =>
    (scan3 "jsonrpc" "method" "params" decOptVersion decString decParamsN
      ms {}).bind fun st =>
      (requireMethod st.t2).map fun m => ⟨st.t1.getD none, m, st.t3.getD .none⟩
  | _ => .error "invalid type: expected struct Notification"

/-- The scan of the `Invalid` struct variant (`src/request.rs` lines 58-63):
only `id` is a schema field and every other key is silently skipped (no
`deny_unknown_fields` on this variant). -/
def scanInvalid : List (String × Json) → Option Id → Except String (Option Id)
  | [], acc => .ok acc
  | (k, v) :: rest, acc =>
    if k = "id" then
      match acc with
      | some _ => .error "duplicate field `id`"
      | none =>
        match decId v with
        | .error e => .error e
        | .ok i => scanInvalid rest (some i)
    else scanInvalid rest acc

/-- Decoding of the `Invalid` variant: the `serde(default)` id salvages
`Null` when the field is absent (the spec's "or Null if absent", §4.3, and
the `invalid_request` test in `src/request.rs`). -/
def deserializeInvalidL : Json → Except String Id
  | .obj ms => (scanInvalid ms none).map fun o => o.getD .null
  | _ => .error "invalid type: expected struct variant Invalid"

/-- Untagged decoding of the legacy `Call`: `MethodCall` shape, then
`Notification`, then the `Invalid` salvage capture. -/
def deserializeCallL (j : Json) : Except String CallL :=
  match deserializeMethodCallL j with
  | .ok mc => .ok (.methodCall mc)
  | .error _ =>
    match deserializeNotificationL j with
    | .ok n => .ok (.notification n)
    | .error _ =>
      match deserializeInvalidL j with
      | .ok i => .ok (.invalid i)
      | .error _ => .error "data did not match any variant of untagged enum Call"

/-- Untagged decoding of the legacy `Request`: single shape first, then
batch. -/
def deserializeRequestL (j : Json) : Except String RequestL :=
  match deserializeCallL j with
  | .ok c => .ok (.single c)
  | .error _ =>
    match j with
    | .arr xs => (xs.mapM deserializeCallL).map .batch
    | _ => .error "data did not match any variant of untagged enum Request"

/-! ## Legacy params operation (`src/params.rs`) -/

/-- `src/params.rs` `Params::expect_no_params`: succeeds only on `None` or an
empty `Array`; any other value is an `InvalidParams` error naming it. -/
def ParamsN.expect_no_params : ParamsN → Except SpecError Unit
  | .none => .ok ()
  | .array [] => .ok ()
  | p => .error (SpecError.invalidParamsWithDetails "No parameters were expected"
      (paramsNToJson p))

/-- `src/request/params.rs` `Params::expect_no_params_v1`: succeeds only on
an empty `Array`. -/
def Params.expect_no_params_v1 : Params → Except SpecError Unit
  | .array [] => .ok ()
  | p => .error (SpecError.invalidParamsWithDetails "No parameters were expected"
      (encParams p))

/-! ## Helper predicates and composites -/

/-- A decode/encode step succeeded. -/
def IsOk {ε α : Type} (e : Except ε α) : Prop := ∃ a, e = .ok a

/-- A decode/encode step returned an error. -/
def IsErr {ε α : Type} (e : Except ε α) : Prop := ∃ msg, e = .error msg

/-- A member that is present or absent: `[]` when absent. -/
def optMember (k : String) (v : Option Json) : List (String × Json) :=
  match v with
  | none => []
  | some j => [(k, j)]

/-- A 2.0 response object in canonical field order with optional `result` and
`error` members. -/
def respObjV2 (rv ev : Option Json) (idj : Json) : Json :=
  .obj (("jsonrpc", Json.str "2.0") :: (optMember "result" rv ++
    optMember "error" ev ++ [("id", idj)]))

/-- Round trip of a `MethodCall` through the wire. -/
def rtMethodCall (mc : MethodCall) : Except String MethodCall :=
  (serializeMethodCall mc).bind deserializeMethodCall

/-- Round trip of a `Notification` through the wire. -/
def rtNotification (n : Notification) : Except String Notification :=
  (serializeNotification n).bind deserializeNotification

/-- Round trip of a `Success` through the wire. -/
def rtSuccess (s : Success) : Except String Success :=
  deserializeSuccess (serializeSuccess s)

/-- Round trip of a `Failure` through the wire. -/
def rtFailure (f : Failure) : Except String Failure :=
  deserializeFailure (serializeFailure f)

/-- A constructed `MethodCall` is valid when its id fits in `u64` and, in
dialect 1.0, its params are a present array (the `new_v1` contract). -/
def MethodCall.valid (mc : MethodCall) : Prop :=
  mc.id.wf ∧ (mc.jsonrpc = none → ∃ xs, mc.params = some (.array xs))

/-- A constructed `Notification` is valid when, in dialect 1.0, its params
are a present array (the `new_v1` contract). -/
def Notification.valid (n : Notification) : Prop :=
  n.jsonrpc = none → ∃ xs, n.params = some (.array xs)

/-! ## Basic facts about the field codecs and the scanners -/

@[simp]
theorem exceptBind_ok {ε α β : Type} (a : α) (f : α → Except ε β) :
    (Except.ok a : Except ε α).bind f = f a := rfl

@[simp]
theorem exceptBind_error {ε α β : Type} (e : ε) (f : α → Except ε β) :
    (Except.error e : Except ε α).bind f = .error e := rfl

@[simp]
theorem exceptMap_ok {ε α β : Type} (a : α) (f : α → β) :
    (Except.ok a : Except ε α).map f = .ok (f a) := rfl

@[simp]
theorem exceptMap_error {ε α β : Type} (e : ε) (f : α → β) :
    (Except.error e : Except ε α).map f = .error e := rfl

theorem isErr_error {ε α : Type} (e : ε) : IsErr (Except.error e : Except ε α) :=
  ⟨e, rfl⟩

/-- An error before the bind is an error after it. -/
theorem isErr_bind {ε α β : Type} {e : Except ε α} (f : α → Except ε β)
    (h : IsErr e) : IsErr (e.bind f) := by
  obtain ⟨msg, hm⟩ := h
  exact ⟨msg, by rw [hm]; rfl⟩

theorem not_isOk_error {ε α : Type} (e : ε) (a : α) :
    (Except.error e : Except ε α) ≠ .ok a := fun h => Except.noConfusion h

/-- Encoded ids decode back, provided the numeric id fits in `u64`. -/
theorem decId_encId (i : Id) (h : i.wf) : decId (encId i) = .ok i := by
  cases i with
  | null => rfl
  | num n =>
    simp only [Id.wf] at h
    simp only [encId, decId]
    rw [if_pos]
    · simp
    · exact ⟨Int.ofNat_nonneg n, by exact_mod_cast h⟩
  | str s => rfl

/-- Encoded params decode back. -/
theorem decParams_encParams (p : Params) : decParams (encParams p) = .ok p := by
  cases p <;> rfl

/-- Encoded error objects decode back. -/
theorem decError_encError (e : SpecError) : decError (encError e) = .ok e := by
  obtain ⟨c, m, d⟩ := e
  cases d <;> rfl

/-- A value that decodes as an `Error` is not null, so it also decodes as a
present `Option<Error>`. -/
theorem decOptError_of_decError {j : Json} {e : SpecError}
    (h : decError j = .ok e) : decOptError j = .ok (some e) := by
  cases j <;> simp_all [decError, decOptError, Except.map]

/-- `Option<Value>` decoding never fails. -/
theorem decOptValue_isOk (j : Json) : ∃ o, decOptValue j = .ok o := by
  cases j <;> exact ⟨_, rfl⟩

/-- `Option<Value>` decoding yields `none` only on JSON null. -/
theorem eq_null_of_decOptValue_none {j : Json}
    (h : decOptValue j = .ok none) : j = .null := by
  cases j <;> simp_all [decOptValue]

/-- `Option<Value>` decoding yields a present value only off JSON null. -/
theorem ne_null_of_decOptValue_some {j v : Json}
    (h : decOptValue j = .ok (some v)) : j ≠ .null := by
  intro he
  subst he
  simp [decOptValue] at h

/-- Off JSON null, `Option<Error>` decoding defers to the error decoder. -/
theorem decOptError_eq_map {j : Json} (h : j ≠ .null) :
    decOptError j = (decError j).map some := by
  cases j <;> first | exact absurd rfl h | rfl

/-- `Option<Error>` decoding yields `none` only on JSON null. -/
theorem eq_null_of_decOptError_none {j : Json}
    (h : decOptError j = .ok none) : j = .null := by
  by_contra hne
  rw [decOptError_eq_map hne] at h
  cases hd : decError j <;> simp [hd, Except.map] at h

/-- `Option<Error>` decoding yields a present error only off JSON null. -/
theorem ne_null_of_decOptError_some {j : Json} {e : SpecError}
    (h : decOptError j = .ok (some e)) : j ≠ .null := by
  intro he
  subst he
  simp [decOptError] at h

/-- Which slot the scanner's branch chain would route a key to, and whether
that slot is already filled (mirrors the branch order of `scan4`). -/
def keySlotFilled {α β γ δ : Type} (k1 k2 k3 k4 : String)
    (st : Scan4State α β γ δ) (k : String) : Bool :=
  if k = k1 then st.s1.isSome
  else if k = k2 then st.s2.isSome
  else if k = k3 then st.s3.isSome
  else if k = k4 then st.s4.isSome
  else false

section ScanLemmas

variable {α β γ δ : Type} {k1 k2 k3 k4 : String}
variable {d1 : Json → Except String α} {d2 : Json → Except String β}
variable {d3 : Json → Except String γ} {d4 : Json → Except String δ}

/-- Master invariant of a successful scan: every key met belongs to the
schema, routes to a slot that was still empty, and no key repeats. -/
theorem scan4_ok_facts : ∀ (ms : List (String × Json)) (st st' : Scan4State α β γ δ),
    scan4 k1 k2 k3 k4 d1 d2 d3 d4 ms st = .ok st' →
    (∀ k ∈ keys ms, (k = k1 ∨ k = k2 ∨ k = k3 ∨ k = k4) ∧
      keySlotFilled k1 k2 k3 k4 st k = false) ∧ (keys ms).Nodup := by
  intro ms
  induction ms with
  | nil => intro st st' _; simp [keys]
  | cons p rest ih =>
    obtain ⟨k, v⟩ := p
    intro st st' h
    simp only [scan4] at h
    split at h
    case isTrue hk1 =>
      split at h
      case h_1 => exact Except.noConfusion h
      case h_2 hs1 =>
        split at h
        case h_1 => exact Except.noConfusion h
        case h_2 x hd =>
          obtain ⟨ihf, ihn⟩ := ih _ _ h
          constructor
          · intro k' hk'
            simp only [keys, List.map_cons, List.mem_cons] at hk'
            rcases hk' with rfl | hk'
            · exact ⟨Or.inl hk1, by simp [keySlotFilled, hk1, hs1]⟩
            · obtain ⟨hf, hfill⟩ := ihf k' hk'
              refine ⟨hf, ?_⟩
              revert hfill
              simp only [keySlotFilled]
              split_ifs <;> simp_all
          · simp only [keys, List.map_cons, List.nodup_cons]
            refine ⟨fun hmem => ?_, ihn⟩
            have := (ihf k hmem).2
            simp [keySlotFilled, hk1] at this
    case isFalse hk1 =>
      split at h
      case isTrue hk2 =>
        split at h
        case h_1 => exact Except.noConfusion h
        case h_2 hs2 =>
          split at h
          case h_1 => exact Except.noConfusion h
          case h_2 x hd =>
            obtain ⟨ihf, ihn⟩ := ih _ _ h
            constructor
            · intro k' hk'
              simp only [keys, List.map_cons, List.mem_cons] at hk'
              rcases hk' with rfl | hk'
              · exact ⟨Or.inr (Or.inl hk2),
                  by simp [keySlotFilled, if_neg hk1, if_pos hk2, hs2]⟩
              · obtain ⟨hf, hfill⟩ := ihf k' hk'
                refine ⟨hf, ?_⟩
                revert hfill
                simp only [keySlotFilled]
                split_ifs <;> simp_all
            · simp only [keys, List.map_cons, List.nodup_cons]
              refine ⟨fun hmem => ?_, ihn⟩
              have := (ihf k hmem).2
              simp only [keySlotFilled, if_neg hk1, if_pos hk2] at this
              simp at this
      case isFalse hk2 =>
        split at h
        case isTrue hk3 =>
          split at h
          case h_1 => exact Except.noConfusion h
          case h_2 hs3 =>
            split at h
            case h_1 => exact Except.noConfusion h
            case h_2 x hd =>
              obtain ⟨ihf, ihn⟩ := ih _ _ h
              constructor
              · intro k' hk'
                simp only [keys, List.map_cons, List.mem_cons] at hk'
                rcases hk' with rfl | hk'
                · exact ⟨Or.inr (Or.inr (Or.inl hk3)),
                    by simp [keySlotFilled, if_neg hk1, if_neg hk2, if_pos hk3, hs3]⟩
                · obtain ⟨hf, hfill⟩ := ihf k' hk'
                  refine ⟨hf, ?_⟩
                  revert hfill
                  simp only [keySlotFilled]
                  split_ifs <;> simp_all
              · simp only [keys, List.map_cons, List.nodup_cons]
                refine ⟨fun hmem => ?_, ihn⟩
                have := (ihf k hmem).2
                simp only [keySlotFilled, if_neg hk1, if_neg hk2, if_pos hk3] at this
                simp at this
        case isFalse hk3 =>
          split at h
          case isTrue hk4 =>
            split at h
            case h_1 => exact Except.noConfusion h
            case h_2 hs4 =>
              split at h
              case h_1 => exact Except.noConfusion h
              case h_2 x hd =>
                obtain ⟨ihf, ihn⟩ := ih _ _ h
                constructor
                · intro k' hk'
                  simp only [keys, List.map_cons, List.mem_cons] at hk'
                  rcases hk' with rfl | hk'
                  · exact ⟨Or.inr (Or.inr (Or.inr hk4)),
                      by simp [keySlotFilled, if_neg hk1, if_neg hk2, if_neg hk3,
                        if_pos hk4, hs4]⟩
                  · obtain ⟨hf, hfill⟩ := ihf k' hk'
                    refine ⟨hf, ?_⟩
                    revert hfill
                    simp only [keySlotFilled]
                    split_ifs <;> simp_all
                · simp only [keys, List.map_cons, List.nodup_cons]
                  refine ⟨fun hmem => ?_, ihn⟩
                  have := (ihf k hmem).2
                  simp only [keySlotFilled, if_neg hk1, if_neg hk2, if_neg hk3,
                    if_pos hk4] at this
                  simp at this
          case isFalse hk4 => exact Except.noConfusion h

/-- A key that never occurs leaves its slot untouched. -/
theorem scan4_s1_eq_of_notmem : ∀ (ms : List (String × Json)) (st st' : Scan4State α β γ δ),
    scan4 k1 k2 k3 k4 d1 d2 d3 d4 ms st = .ok st' → k1 ∉ keys ms →
    st'.s1 = st.s1 := by
  intro ms
  induction ms with
  | nil =>
    intro st st' h _
    injection h with h
    rw [h]
  | cons p rest ih =>
    obtain ⟨k, v⟩ := p
    intro st st' h hnm
    simp only [keys, List.map_cons, List.mem_cons] at hnm
    push_neg at hnm
    obtain ⟨hk, hrest⟩ := hnm
    have hkk : ¬(k = k1) := fun he => hk (Eq.symm he)
    simp only [scan4, if_neg hkk] at h
    repeat' split at h
    all_goals first
      | exact Except.noConfusion h
      | (have hr := ih _ _ h hrest; exact hr)

/-- A filled third slot stays filled with the same value. -/
theorem scan4_s3_mono : ∀ (ms : List (String × Json)) (st st' : Scan4State α β γ δ),
    scan4 k1 k2 k3 k4 d1 d2 d3 d4 ms st = .ok st' →
    ∀ x, st.s3 = some x → st'.s3 = some x := by
  intro ms
  induction ms with
  | nil =>
    intro st st' h x hx
    injection h with h
    rw [h] at hx
    exact hx
  | cons p rest ih =>
    obtain ⟨k, v⟩ := p
    intro st st' h x hx
    simp only [scan4] at h
    repeat' split at h
    all_goals first
      | exact Except.noConfusion h
      | exact ih _ _ h x hx
      | simp_all

/-- A member routed to the third slot must have decoded, and its value is
what the scan ends with. -/
theorem scan4_s3_mem (h31 : k3 ≠ k1) (h32 : k3 ≠ k2) :
    ∀ (ms : List (String × Json)) (st st' : Scan4State α β γ δ),
    scan4 k1 k2 k3 k4 d1 d2 d3 d4 ms st = .ok st' →
    ∀ v, (k3, v) ∈ ms → ∃ x, d3 v = .ok x ∧ st'.s3 = some x := by
  intro ms
  induction ms with
  | nil => intro st st' _ v hv; simp at hv
  | cons p rest ih =>
    obtain ⟨k, w⟩ := p
    intro st st' h v hv
    rcases List.mem_cons.mp hv with heqp | hmem
    · injection heqp with h1 h2
      rw [← h1, ← h2] at h
      simp only [scan4, if_neg h31, if_neg h32, eq_self_iff_true, if_true] at h
      split at h
      case h_1 => exact Except.noConfusion h
      case h_2 hs3 =>
        split at h
        case h_1 => exact Except.noConfusion h
        case h_2 x hd => exact ⟨x, hd, scan4_s3_mono _ _ _ h x rfl⟩
    · simp only [scan4] at h
      repeat' split at h
      all_goals first
        | exact Except.noConfusion h
        | exact ih _ _ h v hmem

end ScanLemmas

section Scan3Lemmas

variable {α β γ : Type} {k1 k2 k3 : String}
variable {d1 : Json → Except String α} {d2 : Json → Except String β}
variable {d3 : Json → Except String γ}

/-- A filled first slot of a three-field scan stays filled unchanged. -/
theorem scan3_t1_mono : ∀ (ms : List (String × Json)) (st st' : Scan3State α β γ),
    scan3 k1 k2 k3 d1 d2 d3 ms st = .ok st' →
    ∀ x, st.t1 = some x → st'.t1 = some x := by
  intro ms
  induction ms with
  | nil =>
    intro st st' h x hx
    injection h with h
    rw [h] at hx
    exact hx
  | cons p rest ih =>
    obtain ⟨k, v⟩ := p
    intro st st' h x hx
    simp only [scan3] at h
    repeat' split at h
    all_goals first
      | exact Except.noConfusion h
      | exact ih _ _ h x hx
      | simp_all

/-- A filled second slot of a three-field scan stays filled unchanged. -/
theorem scan3_t2_mono : ∀ (ms : List (String × Json)) (st st' : Scan3State α β γ),
    scan3 k1 k2 k3 d1 d2 d3 ms st = .ok st' →
    ∀ x, st.t2 = some x → st'.t2 = some x := by
  intro ms
  induction ms with
  | nil =>
    intro st st' h x hx
    injection h with h
    rw [h] at hx
    exact hx
  | cons p rest ih =>
    obtain ⟨k, v⟩ := p
    intro st st' h x hx
    simp only [scan3] at h
    repeat' split at h
    all_goals first
      | exact Except.noConfusion h
      | exact ih _ _ h x hx
      | simp_all

/-- A first slot that was empty and ends filled came from a member of the
scanned object, whose value decoded to the slot's content. -/
theorem scan3_t1_source : ∀ (ms : List (String × Json)) (st st' : Scan3State α β γ),
    scan3 k1 k2 k3 d1 d2 d3 ms st = .ok st' → st.t1 = none →
    ∀ x, st'.t1 = some x → ∃ v, (k1, v) ∈ ms ∧ d1 v = .ok x := by
  intro ms
  induction ms with
  | nil =>
    intro st st' h hn x hx
    injection h with h
    rw [h] at hn
    rw [hn] at hx
    exact Option.noConfusion hx
  | cons p rest ih =>
    obtain ⟨k, v⟩ := p
    intro st st' h hn x hx
    simp only [scan3] at h
    split at h
    case isTrue hk =>
      split at h
      case h_1 => exact Except.noConfusion h
      case h_2 =>
        split at h
        case h_1 => exact Except.noConfusion h
        case h_2 y hd =>
          have hy := scan3_t1_mono _ _ _ h y rfl
          rw [hx] at hy
          injection hy with hy
          subst hk
          exact ⟨v, List.mem_cons_self _ _, by rw [hd, hy]⟩
    case isFalse hk =>
      repeat' split at h
      all_goals first
        | exact Except.noConfusion h
        | (obtain ⟨w, hw, hd⟩ := ih _ _ h hn x hx
           exact ⟨w, List.mem_cons_of_mem _ hw, hd⟩)

/-- A second slot that was empty and ends filled came from a member of the
scanned object, whose value decoded to the slot's content. -/
theorem scan3_t2_source : ∀ (ms : List (String × Json)) (st st' : Scan3State α β γ),
    scan3 k1 k2 k3 d1 d2 d3 ms st = .ok st' → st.t2 = none →
    ∀ x, st'.t2 = some x → ∃ v, (k2, v) ∈ ms ∧ d2 v = .ok x := by
  intro ms
  induction ms with
  | nil =>
    intro st st' h hn x hx
    injection h with h
    rw [h] at hn
    rw [hn] at hx
    exact Option.noConfusion hx
  | cons p rest ih =>
    obtain ⟨k, v⟩ := p
    intro st st' h hn x hx
    simp only [scan3] at h
    split at h
    case isTrue hk =>
      repeat' split at h
      all_goals first
        | exact Except.noConfusion h
        | (obtain ⟨w, hw, hd⟩ := ih _ _ h hn x hx
           exact ⟨w, List.mem_cons_of_mem _ hw, hd⟩)
    case isFalse hk1f =>
      split at h
      case isTrue hk =>
        split at h
        case h_1 => exact Except.noConfusion h
        case h_2 =>
          split at h
          case h_1 => exact Except.noConfusion h
          case h_2 y hd =>
            have hy := scan3_t2_mono _ _ _ h y rfl
            rw [hx] at hy
            injection hy with hy
            subst hk
            exact ⟨v, List.mem_cons_self _ _, by rw [hd, hy]⟩
      case isFalse hk2f =>
        repeat' split at h
        all_goals first
          | exact Except.noConfusion h
          | (obtain ⟨w, hw, hd⟩ := ih _ _ h hn x hx
             exact ⟨w, List.mem_cons_of_mem _ hw, hd⟩)

end Scan3Lemmas

/-- A scan over a member list with a repeated key or a key outside the
four-field schema always errors. -/
theorem scan4_isErr_of_bad {α β γ δ : Type} {k1 k2 k3 k4 : String}
    {d1 : Json → Except String α} {d2 : Json → Except String β}
    {d3 : Json → Except String γ} {d4 : Json → Except String δ}
    (ms : List (String × Json))
    (hcond : ¬ (keys ms).Nodup ∨
      ∃ k ∈ keys ms, ¬(k = k1 ∨ k = k2 ∨ k = k3 ∨ k = k4)) :
    IsErr (scan4 k1 k2 k3 k4 d1 d2 d3 d4 ms {}) := by
  rcases hscan : scan4 k1 k2 k3 k4 d1 d2 d3 d4 ms {} with e | st
  · exact ⟨e, rfl⟩
  · exfalso
    obtain ⟨hf, hnd⟩ := scan4_ok_facts ms _ st hscan
    rcases hcond with h | ⟨k, hk, hnk⟩
    · exact h hnd
    · exact hnk (hf k hk).1

/-! ## Claim theorems -/

/-- **C3.** A 1.0 `MethodCall` (version tag absent) whose params is a `Map`
fails to encode; and any JSON object with no `jsonrpc` key whose `params`
member is a JSON object fails to decode as a `MethodCall`. -/
theorem c3_v1_map_params_rejected :
    (∀ mc : MethodCall, mc.jsonrpc = none →
      ∀ pm, mc.params = some (.map pm) → IsErr (serializeMethodCall mc)) ∧
    (∀ (ms pm : List (String × Json)),
      "jsonrpc" ∉ keys ms → ("params", Json.obj pm) ∈ ms →
      IsErr (deserializeMethodCall (.obj ms))) := by
  constructor
  · intro mc h1 pm h2
    obtain ⟨j, m, p, i⟩ := mc
    simp only at h1 h2
    subst h1
    subst h2
    exact ⟨_, rfl⟩
  · intro ms pm hnm hmem
    rcases hscan : scan4 "jsonrpc" "method" "params" "id"
        decVersion decString decParams decId ms {} with e | st
    · exact ⟨e, by simp [deserializeMethodCall, hscan]⟩
    · have h1 : st.s1 = none := by
        have := scan4_s1_eq_of_notmem ms {} st hscan hnm
        simpa using this
      obtain ⟨x, hdx, hs3⟩ := scan4_s3_mem (by decide) (by decide) ms {} st hscan
        (.obj pm) hmem
      simp only [decParams] at hdx
      injection hdx with hdx
      subst hdx
      refine ⟨"JSON-RPC v1 params must be an array of objects", ?_⟩
      simp [deserializeMethodCall, hscan, finishMethodCall, h1, hs3]

/-- Witness for C3 at concrete inputs. -/
theorem c3_witness :
    IsErr (serializeMethodCall ⟨none, "foo", some (.map []), .num 1⟩) ∧
    IsErr (deserializeMethodCall
      (.obj [("method", .str "foo"), ("params", .obj []), ("id", .num 1)])) :=
  ⟨c3_v1_map_params_rejected.1 ⟨none, "foo", some (.map []), .num 1⟩ rfl [] rfl,
    c3_v1_map_params_rejected.2
      [("method", .str "foo"), ("params", .obj []), ("id", .num 1)] []
      (by decide) (by simp)⟩

/-- **C1.** For a 2.0 response object (canonical member order, well-formed id
and, when present, well-formed error payload), decoding succeeds as a
`Success` exactly when a `result` member is present and no `error` member is
present, and as a `Failure` exactly when an `error` member is present and no
`result` member is present; in particular an object with both members, or
with neither, fails both ways. -/
theorem c1_v2_response_exactly_one :
    ∀ (rv ev : Option Json) (idj : Json) (i : Id),
      decId idj = .ok i →
      (∀ ej, ev = some ej → ∃ e, decError ej = .ok e) →
      ((∃ s, deserializeOutput (respObjV2 rv ev idj) = .ok (.success s)) ↔
        (rv.isSome ∧ ev = none)) ∧
      ((∃ f, deserializeOutput (respObjV2 rv ev idj) = .ok (.failure f)) ↔
        (rv = none ∧ ev.isSome)) := by
  intro rv ev idj i hid hev
  cases rv with
  | none =>
    cases ev with
    | none =>
      constructor <;>
        simp [respObjV2, optMember, deserializeOutput, deserializeSuccess,
          deserializeFailure, scan4, decVersion, hid, finishSuccess,
          finishFailure, requireId]
    | some ej =>
      obtain ⟨e, he⟩ := hev ej rfl
      have hoe := decOptError_of_decError he
      constructor <;>
        simp [respObjV2, optMember, deserializeOutput, deserializeSuccess,
          deserializeFailure, scan4, decVersion, hid, he, hoe, finishSuccess,
          finishFailure, requireId]
  | some r =>
    cases ev with
    | none =>
      obtain ⟨o, ho⟩ := decOptValue_isOk r
      constructor <;>
        simp [respObjV2, optMember, deserializeOutput, deserializeSuccess,
          deserializeFailure, scan4, decVersion, decValue, hid, ho,
          finishSuccess, finishFailure, requireId]
    | some ej =>
      obtain ⟨e, he⟩ := hev ej rfl
      have hoe := decOptError_of_decError he
      obtain ⟨o, ho⟩ := decOptValue_isOk r
      constructor <;>
        simp [respObjV2, optMember, deserializeOutput, deserializeSuccess,
          deserializeFailure, scan4, decVersion, decValue, hid, he, hoe, ho,
          finishSuccess, finishFailure, requireId]

/-- Witness for C1 at a concrete input: the 2.0 response carrying both a
non-null `result` and a non-null `error` decodes neither as `Success` nor as
`Failure`. -/
theorem c1_witness :
    ((∃ s, deserializeOutput (respObjV2 (some (.bool true))
        (some (.obj [("code", .num (-32600)), ("message", .str "Invalid request")]))
        (.num 2)) = .ok (.success s)) ↔
      ((some (Json.bool true)).isSome ∧
        (some (Json.obj [("code", .num (-32600)),
          ("message", .str "Invalid request")]) : Option Json) = none)) ∧
    ((∃ f, deserializeOutput (respObjV2 (some (.bool true))
        (some (.obj [("code", .num (-32600)), ("message", .str "Invalid request")]))
        (.num 2)) = .ok (.failure f)) ↔
      ((some (Json.bool true) : Option Json) = none ∧
        (some (Json.obj [("code", .num (-32600)),
          ("message", .str "Invalid request")]) : Option Json).isSome)) :=
  c1_v2_response_exactly_one (some (.bool true))
    (some (.obj [("code", .num (-32600)), ("message", .str "Invalid request")]))
    (.num 2) (.num 2) rfl
    (fun ej h => by
      injection h with h
      subst h
      exact ⟨⟨-32600, "Invalid request", none⟩, rfl⟩)

/-- **C2.** A 1.0 response object (the `src/v1/response.rs` decoder, chosen
by the absence of a `jsonrpc` member from its schema) decodes successfully
only if both the `result` and `error` members are physically present and
exactly one of them is JSON null; and encoding a 1.0 `Success` or `Failure`
emits both fields with the inactive one as explicit JSON null, never
omitted. -/
theorem c2_v1_response_both_fields :
    (∀ (ms : List (String × Json)) (out : OutputV1),
      deserializeOutputV1 (.obj ms) = .ok out →
      ∃ rv ev, ("result", rv) ∈ ms ∧ ("error", ev) ∈ ms ∧
        ((rv = .null ∧ ev ≠ .null) ∨ (rv ≠ .null ∧ ev = .null))) ∧
    (∀ s : Success, s.jsonrpc = none →
      serializeSuccess s =
        .obj [("result", s.result), ("error", .null), ("id", encId s.id)]) ∧
    (∀ f : Failure, f.jsonrpc = none →
      serializeFailure f =
        .obj [("error", encError f.error), ("result", .null), ("id", encId f.id)]) := by
  refine ⟨?_, ?_, ?_⟩
  · intro ms out h
    rcases hscan : scan3 "result" "error" "id" decOptValue decOptError decId ms {}
      with e | st
    · simp [deserializeOutputV1, hscan] at h
    · have hfin : finishOutputV1 st = .ok out := by
        have h' := h
        simp only [deserializeOutputV1, hscan, exceptBind_ok] at h'
        exact h'
      unfold finishOutputV1 at hfin
      split at hfin
      case h_1 v heq1 heq2 =>
        obtain ⟨rv, hrme, hrd⟩ := scan3_t1_source ms {} st hscan rfl (some v) heq1
        obtain ⟨ev, heme, hed⟩ := scan3_t2_source ms {} st hscan rfl none heq2
        exact ⟨rv, ev, hrme, heme,
          Or.inr ⟨ne_null_of_decOptValue_some hrd, eq_null_of_decOptError_none hed⟩⟩
      case h_2 e heq1 heq2 =>
        obtain ⟨rv, hrme, hrd⟩ := scan3_t1_source ms {} st hscan rfl none heq1
        obtain ⟨ev, heme, hed⟩ := scan3_t2_source ms {} st hscan rfl (some e) heq2
        exact ⟨rv, ev, hrme, heme,
          Or.inl ⟨eq_null_of_decOptValue_none hrd, ne_null_of_decOptError_some hed⟩⟩
      case h_3 => exact Except.noConfusion hfin
  · intro s h1
    obtain ⟨j, r, i⟩ := s
    simp only at h1
    subst h1
    rfl
  · intro f h1
    obtain ⟨j, e, i⟩ := f
    simp only at h1
    subst h1
    rfl

/-- Witness for C2 at concrete inputs. -/
theorem c2_witness :
    (∃ rv ev,
      ("result", rv) ∈ [("result", Json.bool true), ("error", Json.null),
        ("id", Json.num 1)] ∧
      ("error", ev) ∈ [("result", Json.bool true), ("error", Json.null),
        ("id", Json.num 1)] ∧
      ((rv = .null ∧ ev ≠ .null) ∨ (rv ≠ .null ∧ ev = .null))) ∧
    serializeSuccess ⟨none, .bool true, .num 1⟩ =
      .obj [("result", .bool true), ("error", .null), ("id", .num 1)] ∧
    serializeFailure ⟨none, ⟨-32700, "Parse error", none⟩, .num 1⟩ =
      .obj [("error", .obj [("code", .num (-32700)), ("message", .str "Parse error")]),
        ("result", .null), ("id", .num 1)] :=
  ⟨c2_v1_response_both_fields.1
      [("result", Json.bool true), ("error", Json.null), ("id", Json.num 1)]
      ⟨some (.bool true), none, .num 1⟩ rfl,
    c2_v1_response_both_fields.2.1 ⟨none, .bool true, .num 1⟩ rfl,
    c2_v1_response_both_fields.2.2 ⟨none, ⟨-32700, "Parse error", none⟩, .num 1⟩ rfl⟩

/-- **C4.** For every valid constructed `MethodCall`, `Notification`,
`Success` and `Failure`, in both dialects, decoding the result of encoding it
yields the original value; in particular the id survives the round trip
unchanged. -/
theorem c4_roundtrip :
    (∀ mc : MethodCall, mc.valid → rtMethodCall mc = .ok mc) ∧
    (∀ n : Notification, n.valid → rtNotification n = .ok n) ∧
    (∀ s : Success, s.id.wf → rtSuccess s = .ok s) ∧
    (∀ f : Failure, f.id.wf → rtFailure f = .ok f) := by
  refine ⟨?_, ?_, ?_, ?_⟩
  · rintro ⟨j, m, p, i⟩ ⟨hwf, hv1⟩
    cases j with
    | some v =>
      cases v
      cases p with
      | none =>
        simp [rtMethodCall, serializeMethodCall, deserializeMethodCall, scan4,
          decVersion, decString, decId_encId i hwf, finishMethodCall,
          requireMethod, requireId]
      | some prm =>
        simp [rtMethodCall, serializeMethodCall, deserializeMethodCall, scan4,
          decVersion, decString, decParams_encParams, decId_encId i hwf,
          finishMethodCall, requireMethod, requireId]
    | none =>
      obtain ⟨xs, hp⟩ := hv1 rfl
      simp only at hp
      subst hp
      simp [rtMethodCall, serializeMethodCall, deserializeMethodCall, scan4,
        decString, decParams, decId_encId i hwf, finishMethodCall,
        requireMethod, requireId]
  · rintro ⟨j, m, p⟩ hv1
    cases j with
    | some v =>
      cases v
      cases p with
      | none =>
        simp [rtNotification, serializeNotification, deserializeNotification,
          scan4, decVersion, decString, finishNotification, requireMethod]
      | some prm =>
        simp [rtNotification, serializeNotification, deserializeNotification,
          scan4, decVersion, decString, decParams_encParams, finishNotification,
          requireMethod]
    | none =>
      obtain ⟨xs, hp⟩ := hv1 rfl
      simp only at hp
      subst hp
      simp [rtNotification, serializeNotification, deserializeNotification,
        scan4, decString, decParams, decOptId, finishNotification, requireMethod]
  · rintro ⟨j, r, i⟩ hwf
    cases j with
    | some v =>
      cases v
      simp [rtSuccess, serializeSuccess, deserializeSuccess, scan4, decVersion,
        decValue, decId_encId i hwf, finishSuccess, requireId]
    | none =>
      simp [rtSuccess, serializeSuccess, deserializeSuccess, scan4, decValue,
        decOptError, decId_encId i hwf, finishSuccess, requireId]
  · rintro ⟨j, e, i⟩ hwf
    cases j with
    | some v =>
      cases v
      simp [rtFailure, serializeFailure, deserializeFailure, scan4, decVersion,
        decError_encError, decId_encId i hwf, finishFailure, requireId]
    | none =>
      simp [rtFailure, serializeFailure, deserializeFailure, scan4,
        decError_encError, decOptValue, decId_encId i hwf, finishFailure,
        requireId]

/-- Witness for C4 at concrete inputs, including the `Id::Num(7)`
preservation instance. -/
theorem c4_witness :
    rtMethodCall ⟨none, "foo", some (.array [.num 1, .bool true]), .num 7⟩ =
      .ok ⟨none, "foo", some (.array [.num 1, .bool true]), .num 7⟩ ∧
    rtNotification ⟨some .v2_0, "foo", none⟩ = .ok ⟨some .v2_0, "foo", none⟩ ∧
    rtSuccess ⟨some .v2_0, .bool true, .num 1⟩ =
      .ok ⟨some .v2_0, .bool true, .num 1⟩ ∧
    rtFailure ⟨none, ⟨-32700, "Parse error", none⟩, .str "a"⟩ =
      .ok ⟨none, ⟨-32700, "Parse error", none⟩, .str "a"⟩ :=
  ⟨c4_roundtrip.1 ⟨none, "foo", some (.array [.num 1, .bool true]), .num 7⟩
      ⟨by norm_num [Id.wf], fun _ => ⟨[.num 1, .bool true], rfl⟩⟩,
    c4_roundtrip.2.1 ⟨some .v2_0, "foo", none⟩ (fun h => Option.noConfusion h),
    c4_roundtrip.2.2.1 ⟨some .v2_0, .bool true, .num 1⟩ (by norm_num [Id.wf]),
    c4_roundtrip.2.2.2 ⟨none, ⟨-32700, "Parse error", none⟩, .str "a"⟩ trivial⟩

/-- **C9.** An explicit `"id": null` member is accepted by the `MethodCall`
decoder and yields the `Null` id variant in both dialects — the decoder
constrains only the presence of `id`, never its value (any valid id value is
taken as decoded) — and in particular a serialized 1.0 notification (array
params, explicit null id) satisfies the `MethodCall` decoder's shape. -/
theorem c9_methodcall_accepts_null_id :
    ∀ (m : String) (xs : List Json) (p : Option Params) (idj : Json) (i : Id),
      decId idj = .ok i →
      (deserializeMethodCall
          (.obj [("method", .str m), ("params", .arr xs), ("id", idj)]) =
        .ok ⟨none, m, some (.array xs), i⟩) ∧
      (deserializeMethodCall
          (.obj (("jsonrpc", Json.str "2.0") :: ("method", Json.str m) ::
            (optMember "params" (p.map encParams) ++ [("id", idj)]))) =
        .ok ⟨some .v2_0, m, p, i⟩) ∧
      (∀ n : Notification, n.jsonrpc = none → n.params = some (.array xs) →
        (serializeNotification n).bind deserializeMethodCall =
          .ok ⟨none, n.method, some (.array xs), .null⟩) := by
  intro m xs p idj i hdec
  refine ⟨?_, ?_, ?_⟩
  · simp [deserializeMethodCall, scan4, decString, decParams, hdec,
      finishMethodCall, requireMethod, requireId]
  · cases p with
    | none =>
      simp [deserializeMethodCall, scan4, optMember, decVersion, decString,
        hdec, finishMethodCall, requireMethod, requireId]
    | some prm =>
      simp [deserializeMethodCall, scan4, optMember, decVersion, decString,
        decParams_encParams, hdec, finishMethodCall, requireMethod, requireId]
  · rintro ⟨j, m', p'⟩ hj hp
    simp only at hj hp
    subst hj
    subst hp
    simp [serializeNotification, deserializeMethodCall, scan4, decString,
      decParams, decId, finishMethodCall, requireMethod, requireId]

/-- Witness for C9 at concrete inputs: explicit null id in both dialects. -/
theorem c9_witness :
    (deserializeMethodCall
        (.obj [("method", .str "foo"), ("params", .arr []), ("id", .null)]) =
      .ok ⟨none, "foo", some (.array []), .null⟩) ∧
    (deserializeMethodCall
        (.obj [("jsonrpc", .str "2.0"), ("method", .str "foo"), ("id", .null)]) =
      .ok ⟨some .v2_0, "foo", none, .null⟩) ∧
    ((serializeNotification ⟨none, "foo", some (.array [])⟩).bind
        deserializeMethodCall = .ok ⟨none, "foo", some (.array []), .null⟩) :=
  ⟨(c9_methodcall_accepts_null_id "foo" [] none .null .null rfl).1,
    (c9_methodcall_accepts_null_id "foo" [] none .null .null rfl).2.1,
    (c9_methodcall_accepts_null_id "foo" [] none .null .null rfl).2.2
      ⟨none, "foo", some (.array [])⟩ rfl rfl⟩

/-- **C5 (counterexample).** The claim "no unknown top-level field is ever
tolerated by request or response decoding" fails on the legacy `Request`
decoder (`src/request.rs`): the object `{"unknown":[]}` decodes successfully
to the `Call::Invalid` salvage capture with a `Null` id, as that file's own
`invalid_request` test asserts. -/
theorem c5_counterexample :
    deserializeRequestL (.obj [("unknown", .arr [])]) =
      .ok (.single (.invalid .null)) := rfl

/-- **C5 (amended).** In the strict envelope decoders (`MethodCall`,
`Notification`, `Success`, `Failure` of the compat variant), any JSON object
with a repeated key or a key outside the envelope's four-field schema fails
to decode; the legacy `Call::Invalid` fallback is the documented exception
(see the counterexample). -/
theorem c5_strict_closed_schema :
    (∀ ms : List (String × Json),
      (¬ (keys ms).Nodup ∨
        ∃ k ∈ keys ms, ¬(k = "jsonrpc" ∨ k = "method" ∨ k = "params" ∨ k = "id")) →
      IsErr (deserializeMethodCall (.obj ms)) ∧
      IsErr (deserializeNotification (.obj ms))) ∧
    (∀ ms : List (String × Json),
      (¬ (keys ms).Nodup ∨
        ∃ k ∈ keys ms, ¬(k = "jsonrpc" ∨ k = "result" ∨ k = "error" ∨ k = "id")) →
      IsErr (deserializeSuccess (.obj ms)) ∧
      IsErr (deserializeFailure (.obj ms))) := by
  constructor
  · intro ms hcond
    exact ⟨isErr_bind finishMethodCall (scan4_isErr_of_bad ms hcond),
      isErr_bind finishNotification (scan4_isErr_of_bad ms hcond)⟩
  · intro ms hcond
    exact ⟨isErr_bind finishSuccess (scan4_isErr_of_bad ms hcond),
      isErr_bind finishFailure (scan4_isErr_of_bad ms hcond)⟩

/-- Witness for the amended C5 at concrete inputs: an unknown key and a
duplicated key. -/
theorem c5_witness :
    (IsErr (deserializeMethodCall (.obj [("unknown", .arr [])])) ∧
      IsErr (deserializeNotification (.obj [("unknown", .arr [])]))) ∧
    (IsErr (deserializeSuccess
        (.obj [("result", .bool true), ("result", .bool true), ("id", .num 1)])) ∧
      IsErr (deserializeFailure
        (.obj [("result", .bool true), ("result", .bool true), ("id", .num 1)]))) :=
  ⟨c5_strict_closed_schema.1 [("unknown", .arr [])]
      (Or.inr ⟨"unknown", by simp [keys], by decide⟩),
    c5_strict_closed_schema.2
      [("result", .bool true), ("result", .bool true), ("id", .num 1)]
      (Or.inl (by simp [keys]))⟩

/-- **C6.** Encoding a 1.0 `Notification` (version tag absent, array params)
emits no `jsonrpc` field and an explicit `"id": null`, with fields in the
fixed order `method, params, id`; and encoding any 1.0 envelope
(`MethodCall`, `Notification`, `Success`, `Failure`) never emits a `jsonrpc`
field. -/
theorem c6_v1_encoding_shape :
    (∀ (n : Notification) (xs : List Json), n.jsonrpc = none →
      n.params = some (.array xs) →
      serializeNotification n =
        .ok (.obj [("method", .str n.method), ("params", .arr xs), ("id", .null)])) ∧
    (∀ (mc : MethodCall) (ms : List (String × Json)), mc.jsonrpc = none →
      serializeMethodCall mc = .ok (.obj ms) → "jsonrpc" ∉ keys ms) ∧
    (∀ (n : Notification) (ms : List (String × Json)), n.jsonrpc = none →
      serializeNotification n = .ok (.obj ms) → "jsonrpc" ∉ keys ms) ∧
    (∀ (s : Success) (ms : List (String × Json)), s.jsonrpc = none →
      serializeSuccess s = .obj ms → "jsonrpc" ∉ keys ms) ∧
    (∀ (f : Failure) (ms : List (String × Json)), f.jsonrpc = none →
      serializeFailure f = .obj ms → "jsonrpc" ∉ keys ms) := by
  refine ⟨?_, ?_, ?_, ?_, ?_⟩
  · intro n xs h1 h2
    obtain ⟨j, m, p⟩ := n
    simp only at h1 h2
    subst h1
    subst h2
    rfl
  · intro mc ms h1 h2
    obtain ⟨j, m, p, i⟩ := mc
    simp only at h1
    subst h1
    rcases p with _ | ⟨xs | pm⟩ <;> simp [serializeMethodCall] at h2
    subst h2
    simp [keys]
  · intro n ms h1 h2
    obtain ⟨j, m, p⟩ := n
    simp only at h1
    subst h1
    rcases p with _ | ⟨xs | pm⟩ <;> simp [serializeNotification] at h2
    subst h2
    simp [keys]
  · intro s ms h1 h2
    obtain ⟨j, r, i⟩ := s
    simp only at h1
    subst h1
    simp [serializeSuccess] at h2
    subst h2
    simp [keys]
  · intro f ms h1 h2
    obtain ⟨j, e, i⟩ := f
    simp only at h1
    subst h1
    simp [serializeFailure] at h2
    subst h2
    simp [keys]

/-- Witness for C6 at concrete inputs. -/
theorem c6_witness :
    serializeNotification ⟨none, "foo", some (.array [])⟩ =
      .ok (.obj [("method", .str "foo"), ("params", .arr []), ("id", .null)]) ∧
    "jsonrpc" ∉ keys [("method", Json.str "foo"), ("params", Json.arr []),
      ("id", Json.num 1)] :=
  ⟨c6_v1_encoding_shape.1 ⟨none, "foo", some (.array [])⟩ [] rfl rfl,
    c6_v1_encoding_shape.2.1 ⟨none, "foo", some (.array []), .num 1⟩ _ rfl rfl⟩

/-- **C7.** The expect-empty-params operations succeed exactly when the
params are absent (`ParamsN.none`) or an empty array, and otherwise return an
`InvalidParams` (-32602) error carrying the offending params value; both are
total functions (no panic). -/
theorem c7_expect_empty_params :
    (∀ p : ParamsN,
      (p.expect_no_params = .ok () ↔ (p = .none ∨ p = .array [])) ∧
      (∀ e, p.expect_no_params = .error e →
        e.code = -32602 ∧ e.data = some (paramsNToJson p))) ∧
    (∀ p : Params,
      (p.expect_no_params_v1 = .ok () ↔ p = .array []) ∧
      (∀ e, p.expect_no_params_v1 = .error e →
        e.code = -32602 ∧ e.data = some (encParams p))) := by
  constructor
  · intro p
    constructor
    · cases p with
      | none => simp [ParamsN.expect_no_params]
      | array xs => cases xs <;> simp [ParamsN.expect_no_params]
      | map ms => simp [ParamsN.expect_no_params]
    · intro e he
      cases p with
      | none => exact Except.noConfusion he
      | array xs =>
        cases xs with
        | nil => exact Except.noConfusion he
        | cons x t =>
          injection he with he
          subst he
          exact ⟨rfl, rfl⟩
      | map ms =>
        injection he with he
        subst he
        exact ⟨rfl, rfl⟩
  · intro p
    constructor
    · cases p with
      | array xs => cases xs <;> simp [Params.expect_no_params_v1]
      | map ms => simp [Params.expect_no_params_v1]
    · intro e he
      cases p with
      | array xs =>
        cases xs with
        | nil => exact Except.noConfusion he
        | cons x t =>
          injection he with he
          subst he
          exact ⟨rfl, rfl⟩
      | map ms =>
        injection he with he
        subst he
        exact ⟨rfl, rfl⟩

/-- Witness for C7 at concrete inputs. -/
theorem c7_witness :
    (ParamsN.expect_no_params .none = .ok () ↔
      ((ParamsN.none = .none) ∨ (ParamsN.none = .array []))) ∧
    ((SpecError.invalidParamsWithDetails "No parameters were expected"
        (.arr [.bool true])).code = -32602 ∧
      (SpecError.invalidParamsWithDetails "No parameters were expected"
        (.arr [.bool true])).data = some (.arr [.bool true])) :=
  ⟨(c7_expect_empty_params.1 .none).1,
    (c7_expect_empty_params.1 (.array [.bool true])).2
      (SpecError.invalidParamsWithDetails "No parameters were expected"
        (.arr [.bool true])) rfl⟩

/-- **C8.** The `new_v1` constructors panic (modelled as `none`) exactly when
the supplied params are not an array, and otherwise build the 1.0 envelope
(version tag absent) with the given method, params and id; the decoders
themselves are total functions returning errors, never panicking. -/
theorem c8_new_v1_contract :
    ∀ (m : String) (p : Params) (i : Id),
      ((MethodCall.new_v1 m p i).isSome ↔ p.is_array = true) ∧
      ((Notification.new_v1 m p).isSome ↔ p.is_array = true) ∧
      (p.is_array = true →
        MethodCall.new_v1 m p i = some ⟨none, m, some p, i⟩ ∧
        Notification.new_v1 m p = some ⟨none, m, some p⟩) ∧
      (p.is_array = false →
        MethodCall.new_v1 m p i = none ∧ Notification.new_v1 m p = none) := by
  intro m p i
  cases p <;> simp [MethodCall.new_v1, Notification.new_v1, Params.is_array]

/-- Witness for C8 at concrete inputs. -/
theorem c8_witness :
    MethodCall.new_v1 "foo" (.array []) (.num 1) =
      some ⟨none, "foo", some (.array []), .num 1⟩ ∧
    Notification.new_v1 "foo" (.map []) = none :=
  ⟨((c8_new_v1_contract "foo" (.array []) (.num 1)).2.2.1 rfl).1,
    ((c8_new_v1_contract "foo" (.map []) (.num 1)).2.2.2 rfl).2⟩

/-- **C10.** Encoding a 1.0 envelope with absent params fails: a 1.0
`MethodCall` with absent params fails with the missing-params error, and a
1.0 `Notification` with absent params fails with the incompatible-dialect
error. -/
theorem c10_v1_absent_params_encode_fails :
    (∀ mc : MethodCall, mc.jsonrpc = none → mc.params = none →
      serializeMethodCall mc = .error "missing field `params`") ∧
    (∀ n : Notification, n.jsonrpc = none → n.params = none →
      serializeNotification n =
        .error "Incompatible with JSON-RPC v1 and v2 specification") := by
  constructor
  · intro mc h1 h2
    obtain ⟨j, m, p, i⟩ := mc
    simp only at h1 h2
    subst h1
    subst h2
    rfl
  · intro n h1 h2
    obtain ⟨j, m, p⟩ := n
    simp only at h1 h2
    subst h1
    subst h2
    rfl

/-- Witness for C10 at concrete inputs. -/
theorem c10_witness :
    serializeMethodCall ⟨none, "foo", none, .num 1⟩ =
      .error "missing field `params`" ∧
    serializeNotification ⟨none, "foo", none⟩ =
      .error "Incompatible with JSON-RPC v1 and v2 specification" :=
  ⟨c10_v1_absent_params_encode_fails.1 ⟨none, "foo", none, .num 1⟩ rfl rfl,
    c10_v1_absent_params_encode_fails.2 ⟨none, "foo", none⟩ rfl rfl⟩

end JsonRpc
